import Mathlib
/-
Verification of the subscription calculation engine
(`SubscriptionCalculator`, src/unnamed/part_004) of the BaseRNFirebase
repository.

The calculator manipulates JavaScript `Date` values through the mutators
`setMonth`, `setDate` and `setFullYear`, compares them by their time value,
and does plain numeric arithmetic on amounts.  We embed:

* a JavaScript `Date` as its normalized civil components
  (`year`, `month` in 0..11, `day` in 1..length of month, millisecond of
  day), exactly the values `getFullYear` / `getMonth` / `getDate` return;
  the ECMAScript `MakeDay`/`TimeClip` normalization is the function `normD`
  below, and the epoch time value (`getTime`) is `JSDate.time`;
* JavaScript numbers used for money as `ℚ` (exact arithmetic; the claims
  under test are about the exact formulas), and integral quantities
  (days, months, years, milliseconds) as `Int`;
* thrown exceptions as `Except String`, `null`/`undefined` as `Option`,
  and JavaScript truthiness of optional numeric fields explicitly
  (`0`/absent are falsy).
-/

/-- Milliseconds per day. -/
def dayMs : Int := 86400000

/-- Proleptic Gregorian leap-year test, as ECMAScript `DaysInYear`. -/
def isLeap (y : Int) : Bool := (y % 4 == 0 && y % 100 != 0) || y % 400 == 0

/-- Indicator that is `1` on leap years and `0` otherwise. -/
def leapInd (y : Int) : Int := if isLeap y then 1 else 0

/-- Number of days of month `m` (0-based) in a year with leap flag `L`.
Out-of-range months only arise transiently before normalization; they get
the harmless default 31. -/
def monthLen (L : Bool) (m : Int) : Int :=
  if m = 1 then (if L then 29 else 28)
  else if m = 3 then 30
  else if m = 5 then 30
  else if m = 8 then 30
  else if m = 10 then 30
  else 31

/-- Days elapsed in the year before month `m` (0-based), with leap flag `L`. -/
def monthOff (L : Bool) (m : Int) : Int :=
  if m ≤ 0 then 0
  else if m = 1 then 31
  else if m = 2 then 59 + (if L then 1 else 0)
  else if m = 3 then 90 + (if L then 1 else 0)
  else if m = 4 then 120 + (if L then 1 else 0)
  else if m = 5 then 151 + (if L then 1 else 0)
  else if m = 6 then 181 + (if L then 1 else 0)
  else if m = 7 then 212 + (if L then 1 else 0)
  else if m = 8 then 243 + (if L then 1 else 0)
  else if m = 9 then 273 + (if L then 1 else 0)
  else if m = 10 then 304 + (if L then 1 else 0)
  else 334 + (if L then 1 else 0)

/-- Number of leap years `k` with `0 ≤ k < y` (negative when `y < 0`). -/
def leapsBefore (y : Int) : Int := (y + 3) / 4 - (y + 99) / 100 + (y + 399) / 400

/-- Days from civil 0000-01-01 to the first day of year `y`. -/
def daysToYear (y : Int) : Int := 365 * y + leapsBefore y

/-- Day number (civil, from 0000-01-01) of year `y`, 0-based month `m`
(assumed in 0..11) and day-of-month `d`; linear in `d`, so meaningful for
out-of-range `d` as well, exactly like ECMAScript `MakeDay`. -/
def rawDN (y m d : Int) : Int := daysToYear y + monthOff (isLeap y) m + (d - 1)

/-- Day number for an arbitrary (possibly out-of-range) month, rolling
whole years first, as ECMAScript `MakeDay` does. -/
def extDN (y m d : Int) : Int := rawDN (y + m / 12) (m % 12) d

/-- A JavaScript `Date`: normalized civil components plus millisecond of
day.  `y`/`m`/`d` are exactly what `getFullYear`/`getMonth`/`getDate`
return. -/
structure JSDate where
  y : Int
  m : Int
  d : Int
  ms : Int
deriving DecidableEq

/-- Civil day number of a `JSDate` (days from 0000-01-01). -/
def JSDate.dayNum (t : JSDate) : Int := rawDN t.y t.m t.d

/-- The ECMAScript time value (`getTime`): milliseconds since the epoch
1970-01-01T00:00Z.  `719528` is the civil day number of the epoch. -/
def JSDate.time (t : JSDate) : Int := (t.dayNum - 719528) * dayMs + t.ms

/-- A `JSDate` is valid when its components are in normalized range. -/
def JSDate.Valid (t : JSDate) : Prop :=
  0 ≤ t.m ∧ t.m < 12 ∧ 1 ≤ t.d ∧ t.d ≤ monthLen (isLeap t.y) t.m ∧
    0 ≤ t.ms ∧ t.ms < dayMs

instance (t : JSDate) : Decidable t.Valid := by unfold JSDate.Valid; infer_instance

/-- Fuel bound for day-of-month normalization: strictly more than the
number of month-carry steps needed for day value `d`. -/
def rollFuel (d : Int) : Nat := (if d < 1 then 33 - d else d).toNat + 1

/-- Normalize an out-of-range day-of-month by carrying whole months,
month kept in 0..11.  Structural in the fuel so that it evaluates. -/
def rollD : Nat → Int → Int → Int → Int × Int × Int
  | 0, y, m, d => (y, m, d)
  | f + 1, y, m, d =>
    if d < 1 then
      if m = 0 then rollD f (y - 1) 11 (d + monthLen (isLeap (y - 1)) 11)
      else rollD f y (m - 1) (d + monthLen (isLeap y) (m - 1))
    else if monthLen (isLeap y) m < d then
      if m = 11 then rollD f (y + 1) 0 (d - monthLen (isLeap y) 11)
      else rollD f y (m + 1) (d - monthLen (isLeap y) m)
    else (y, m, d)

/-- ECMAScript `MakeDay` normalization: roll an arbitrary month into
0..11 (carrying years), then roll the day-of-month.  The result is the
normalized civil triple with the same extended day number. -/
def normD (y m d ms : Int) : JSDate :=
  let r := rollD (rollFuel d) (y + m / 12) (m % 12) d
  ⟨r.1, r.2.1, r.2.2, ms⟩

/-- Model of `setMonth(v)`: ECMAScript keeps year and day-of-month and the time of
day, substitutes the month, and renormalizes. -/
def JSDate.setMonth (t : JSDate) (v : Int) : JSDate := normD t.y v t.d t.ms

/-- Model of `setDate(v)`: substitutes the day-of-month and renormalizes. -/
def JSDate.setDate (t : JSDate) (v : Int) : JSDate := normD t.y t.m v t.ms

/-- Model of `setFullYear(v)`: substitutes the year and renormalizes. -/
def JSDate.setFullYear (t : JSDate) (v : Int) : JSDate := normD v t.m t.d t.ms

/-- Model of `new Date(year, month, day)` (midnight, time value components zero).
ECMAScript maps a year argument in 0..99 to 1900+year. -/
def newDateYMD (y m d : Int) : JSDate :=
  normD (if 0 ≤ y ∧ y ≤ 99 then y + 1900 else y) m d 0

/-- The currency enumeration of `subscription.types.ts`. -/
inductive Currency
  | USD
  | INR
  | EUR
  | GBP
  | AUD
deriving DecidableEq

/-- The fields of a `Subscription` record that the calculator reads.
`frequency` is a string at runtime (the TypeScript union is erased), so
unrecognized values are representable; optional numeric fields carry
JavaScript truthiness (absent and `0` are falsy). -/
structure Subscription where
  amount : ℚ
  currency : Currency
  billingDate : Int
  frequency : String
  customFrequencyDays : Option Int
  startDate : JSDate
  isOneTime : Bool
  cycleLimit : Option Nat
  isDeleted : Bool
deriving DecidableEq

/-- JavaScript truthiness of the optional `cycleLimit` field. -/
def cycleTruthy : Option Nat → Bool
  | none => false
  | some n => n != 0

/-- JavaScript truthiness of the optional `customFrequencyDays` field. -/
def daysTruthy : Option Int → Bool
  | none => false
  | some v => v != 0

/-- Model of `SubscriptionCalculator.addBillingCycle`. -/
def addBillingCycle (date : JSDate) (frequency : String) (customDays : Option Int) : JSDate :=
  if frequency = "monthly" then date.setMonth (date.m + 1)
  else if frequency = "quarterly" then date.setMonth (date.m + 3)
  else if frequency = "half-yearly" then date.setMonth (date.m + 6)
  else if frequency = "yearly" then date.setFullYear (date.y + 1)
  else if frequency = "custom" then
    if daysTruthy customDays then date.setDate (date.d + customDays.getD 0) else date
  else date

/-- Model of `SubscriptionCalculator.subtractBillingCycle`. -/
def subtractBillingCycle (date : JSDate) (frequency : String) (customDays : Option Int) : JSDate :=
  if frequency = "monthly" then date.setMonth (date.m - 1)
  else if frequency = "quarterly" then date.setMonth (date.m - 3)
  else if frequency = "half-yearly" then date.setMonth (date.m - 6)
  else if frequency = "yearly" then date.setFullYear (date.y - 1)
  else if frequency = "custom" then
    if daysTruthy customDays then date.setDate (date.d - customDays.getD 0) else date
  else date

/-- The `for` loop of `getSubscriptionEndDate` and
`getCancellationReminderDate`: apply `addBillingCycle` the given number of
times. -/
def runCycles (frequency : String) (customDays : Option Int) : Nat → JSDate → JSDate
  | 0, d => d
  | n + 1, d => runCycles frequency customDays n (addBillingCycle d frequency customDays)

/-- The end date computed by the loop body of
`SubscriptionCalculator.getSubscriptionEndDate` (guard excluded). -/
def endDateCore (s : Subscription) : JSDate :=
  runCycles s.frequency s.customFrequencyDays (s.cycleLimit.getD 0) s.startDate

/-- Model of `SubscriptionCalculator.getSubscriptionEndDate`; the `throw` is an
`Except.error`. -/
def getSubscriptionEndDate (s : Subscription) : Except String JSDate :=
  if !s.isOneTime || !cycleTruthy s.cycleLimit then .error "Not a one-time subscription"
  else .ok (endDateCore s)

/-- Model of `SubscriptionCalculator.getCancellationReminderDate`. -/
def getCancellationReminderDate (s : Subscription) : Option JSDate :=
  if !s.isOneTime || !cycleTruthy s.cycleLimit || decide (s.cycleLimit.getD 0 ≤ 1) then none
  else some (runCycles s.frequency s.customFrequencyDays (s.cycleLimit.getD 0 - 1) s.startDate)

/-- Model of `SubscriptionCalculator.getNextBillingDate`; `now` is the ambient
`new Date()` the source reads. -/
def getNextBillingDate (s : Subscription) (now : JSDate) : JSDate :=
  let candidate := newDateYMD now.y now.m s.billingDate
  let next :=
    if candidate.time ≤ now.time then
      addBillingCycle candidate s.frequency s.customFrequencyDays
    else candidate
  if s.isOneTime && cycleTruthy s.cycleLimit then
    if (endDateCore s).time < now.time then endDateCore s else next
  else next

/-- Model of `SubscriptionCalculator.getDaysUntilBilling`:
`Math.ceil(diffTime / (1000*60*60*24))`. -/
def getDaysUntilBilling (s : Subscription) (now : JSDate) : Int :=
  ⌈(((getNextBillingDate s now).time - now.time : Int) : ℚ) / (1000 * 60 * 60 * 24)⌉

/-- Model of `SubscriptionCalculator.getMonthlyEquivalent`. -/
def getMonthlyEquivalent (s : Subscription) : ℚ :=
  if s.frequency = "monthly" then s.amount
  else if s.frequency = "quarterly" then s.amount / 3
  else if s.frequency = "half-yearly" then s.amount / 6
  else if s.frequency = "yearly" then s.amount / 12
  else if s.frequency = "custom" then
    if daysTruthy s.customFrequencyDays then
      s.amount * 30 / ((s.customFrequencyDays.getD 0 : Int) : ℚ)
    else s.amount
  else s.amount

/-- The hardcoded exchange-rate table of
`SubscriptionCalculator.convertCurrency`. -/
def rates : Currency → ℚ
  | .USD => 1
  | .INR => 83.0
  | .EUR => 0.92
  | .GBP => 0.79
  | .AUD => 1.52

/-- Model of `SubscriptionCalculator.convertCurrency`. -/
def convertCurrency (amount : ℚ) (src tgt : Currency) : ℚ :=
  if src = tgt then amount
  else
    let inUSD := amount / rates src
    inUSD * rates tgt

/-- Model of `SubscriptionCalculator.calculateTotalMonthlySpend`.  Note the source
computes `convertedAmount` but adds the unconverted `monthlyAmount`. -/
def calculateTotalMonthlySpend (subs : List Subscription) (targetCurrency : Currency) : ℚ :=
  (subs.filter fun sub => !sub.isDeleted).foldl
    (fun total sub =>
      let monthlyAmount := getMonthlyEquivalent sub
      let convertedAmount := convertCurrency monthlyAmount sub.currency targetCurrency
      total + monthlyAmount)
    0

/-- Model of `SubscriptionCalculator.getUpcomingSubscriptions`; JavaScript
`Array.prototype.sort` with the comparator
`getDaysUntilBilling(a) - getDaysUntilBilling(b)` is a stable sort by that
key, embedded as `List.insertionSort`. -/
def getUpcomingSubscriptions (subs : List Subscription) (days : Int) (now : JSDate) :
    List Subscription :=
  List.insertionSort (fun a b => getDaysUntilBilling a now ≤ getDaysUntilBilling b now)
    (subs.filter fun sub =>
      !sub.isDeleted && decide (0 ≤ getDaysUntilBilling sub now) &&
        decide (getDaysUntilBilling sub now ≤ days))

/-- Model of `SubscriptionCalculator.getBillingCycleProgress`. -/
def getBillingCycleProgress (s : Subscription) (now : JSDate) : ℚ :=
  let nextBilling := getNextBillingDate s now
  let prevBilling := subtractBillingCycle nextBilling s.frequency s.customFrequencyDays
  let totalTime : ℚ := ((nextBilling.time - prevBilling.time : Int) : ℚ)
  let elapsed : ℚ := ((now.time - prevBilling.time : Int) : ℚ)
  let progress := elapsed / totalTime * 100
  max 0 (min 100 progress)

/-- A subscription with `frequency = 'custom'` and `customFrequencyDays`
present but equal to `0` (falsy in JavaScript). -/
def c6Sub : Subscription := ⟨10, .USD, 1, "custom", some 0, ⟨2024, 0, 1, 0⟩, false, none, false⟩

/-- A one-time subscription whose `cycleLimit` is present but `0`. -/
def c3Sub : Subscription := ⟨10, .USD, 1, "monthly", none, ⟨2024, 0, 1, 0⟩, true, some 0, false⟩

/-- A well-formed one-time subscription with two cycles. -/
def c3wSub : Subscription := ⟨10, .USD, 1, "monthly", none, ⟨2024, 0, 1, 0⟩, true, some 2, false⟩

/-- A well-formed one-time subscription with six monthly cycles
(scenario 2 of the specification). -/
def c4Sub : Subscription := ⟨10, .USD, 1, "monthly", none, ⟨2024, 0, 1, 0⟩, true, some 6, false⟩

/-- A one-time custom subscription with no custom frequency days. -/
def c10Sub : Subscription := ⟨10, .USD, 1, "custom", none, ⟨2024, 0, 1, 0⟩, true, some 3, false⟩

/-- A recurring subscription whose `startDate` lies in the future
(2030-01-01), observed in June 2024. -/
def c9Sub : Subscription := ⟨10, .USD, 15, "monthly", none, ⟨2030, 0, 1, 0⟩, false, none, false⟩

/-- The observation instant 2024-06-10T00:00Z. -/
def c9Now : JSDate := ⟨2024, 5, 10, 0⟩

/-- A recurring custom-frequency subscription billing every day. -/
def c1Sub : Subscription := ⟨10, .USD, 1, "custom", some 1, ⟨2024, 0, 1, 0⟩, false, none, false⟩

/-- Well-formedness of the frequency fields per the data model: a
recognized frequency, with a positive integer `customFrequencyDays` when
the frequency is `custom`. -/
def GoodFreq (freq : String) (cd : Option Int) : Prop :=
  freq = "monthly" ∨ freq = "quarterly" ∨ freq = "half-yearly" ∨ freq = "yearly" ∨
    (freq = "custom" ∧ ∃ v : Int, cd = some v ∧ 1 ≤ v)

/-- The candidate-based branch of `getNextBillingDate`. -/
def gNBDnext (s : Subscription) (now : JSDate) : JSDate :=
  if (newDateYMD now.y now.m s.billingDate).time ≤ now.time then
    addBillingCycle (newDateYMD now.y now.m s.billingDate) s.frequency
      s.customFrequencyDays
  else newDateYMD now.y now.m s.billingDate

lemma monthLen_bounds (L : Bool) (m : Int) : 28 ≤ monthLen L m ∧ monthLen L m ≤ 31 := by
  unfold monthLen; split_ifs <;> omega

lemma monthOff_nonneg (L : Bool) (m : Int) (h0 : 0 ≤ m) (h1 : m ≤ 11) :
    0 ≤ monthOff L m := by
  interval_cases m <;> cases L <;> decide

lemma monthOff_le (L : Bool) (m : Int) (h0 : 0 ≤ m) (h1 : m ≤ 11) :
    monthOff L m ≤ 335 := by
  interval_cases m <;> cases L <;> decide

lemma monthOff_zero (L : Bool) : monthOff L 0 = 0 := by cases L <;> decide

lemma monthOff_add (L : Bool) (m : Int) (h0 : 0 ≤ m) (h1 : m ≤ 10) :
    monthOff L (m + 1) = monthOff L m + monthLen L m := by
  interval_cases m <;> cases L <;> decide

lemma monthOff_year (L : Bool) :
    monthOff L 11 + monthLen L 11 = 365 + (if L then 1 else 0) := by
  cases L <;> decide

lemma monthOff_mono (L : Bool) (a b : Int) (h0 : 0 ≤ a) (hab : a ≤ b) (hb : b ≤ 11) :
    monthOff L a ≤ monthOff L b := by
  have ha : a ≤ 11 := le_trans hab hb
  interval_cases a <;> interval_cases b <;> cases L <;> decide

lemma monthOff_strict_mono (L : Bool) (a b : Int) (h0 : 0 ≤ a) (hab : a < b) (hb : b ≤ 11) :
    monthOff L a < monthOff L b := by
  have ha : a ≤ 11 := by omega
  interval_cases a <;> interval_cases b <;> cases L <;> decide

lemma monthOff_leap_diff (m : Int) (h0 : 0 ≤ m) (h1 : m ≤ 11) :
    monthOff true m ≤ monthOff false m + 1 ∧ monthOff false m ≤ monthOff true m := by
  interval_cases m <;> decide

lemma monthOff_eleven (y : Int) : monthOff (isLeap y) 11 = 334 + leapInd y := by
  unfold leapInd
  cases h : isLeap y <;> simp [h] <;> decide

lemma dayOfYear_le (L : Bool) (m d : Int) (h0 : 0 ≤ m) (h1 : m < 12)
    (hd : d ≤ monthLen L m) : monthOff L m + (d - 1) ≤ 364 + (if L then 1 else 0) := by
  have h11 : m ≤ 11 := by omega
  have hoff := monthOff_le L m h0 h11
  have hoa : monthOff L m + monthLen L m ≤ 365 + (if L then 1 else 0) := by
    rcases (by omega : m ≤ 10 ∨ m = 11) with h | h
    · rw [← monthOff_add L m h0 h]
      have := monthOff_le L (m + 1) (by omega) (by omega)
      cases L <;> simp_all <;> omega
    · subst h; rw [monthOff_year]
  omega

lemma daysToYear_succ (y : Int) : daysToYear (y + 1) = daysToYear y + 365 + leapInd y := by
  unfold daysToYear leapsBefore leapInd isLeap
  simp only [Bool.or_eq_true, Bool.and_eq_true, beq_iff_eq, bne_iff_ne, ne_eq]
  split <;> omega

lemma daysToYear_1900 (y : Int) : daysToYear y + 400000 ≤ daysToYear (y + 1900) := by
  unfold daysToYear leapsBefore; omega

lemma monthLen_eleven (L : Bool) : monthLen L 11 = 31 := by cases L <;> decide

lemma daysToYear_pred (y : Int) :
    daysToYear y = daysToYear (y - 1) + 365 + leapInd (y - 1) := by
  have h := daysToYear_succ (y - 1)
  simpa using h

lemma monthOff_add' (L : Bool) (m : Int) (h0 : 1 ≤ m) (h1 : m ≤ 11) :
    monthOff L m = monthOff L (m - 1) + monthLen L (m - 1) := by
  have h := monthOff_add L (m - 1) (by omega) (by omega)
  simpa using h

lemma rollD_spec (f : Nat) : ∀ y m d : Int, 0 ≤ m → m < 12 →
    (d < 1 → 33 - d < (f : Int)) → (1 ≤ d → d < (f : Int)) →
    (0 ≤ (rollD f y m d).2.1 ∧ (rollD f y m d).2.1 < 12 ∧
      1 ≤ (rollD f y m d).2.2 ∧
      (rollD f y m d).2.2 ≤ monthLen (isLeap (rollD f y m d).1) (rollD f y m d).2.1 ∧
      rawDN (rollD f y m d).1 (rollD f y m d).2.1 (rollD f y m d).2.2 = rawDN y m d) := by
  induction f with
  | zero => intro y m d _ _ hA hB; omega
  | succ f ih =>
    intro y m d hm0 hm12 hA hB
    rw [rollD]
    by_cases h1 : d < 1
    · rw [if_pos h1]
      have hAd := hA h1
      by_cases hm : m = 0
      · rw [if_pos hm]
        subst hm
        have hlen := monthLen_bounds (isLeap (y - 1)) 11
        have hstep := ih (y - 1) 11 (d + monthLen (isLeap (y - 1)) 11)
          (by omega) (by omega) (by intro h; omega) (by intro h; omega)
        refine ⟨hstep.1, hstep.2.1, hstep.2.2.1, hstep.2.2.2.1, ?_⟩
        rw [hstep.2.2.2.2]
        have hy := daysToYear_pred y
        have h11 := monthOff_eleven (y - 1)
        have h31 := monthLen_eleven (isLeap (y - 1))
        unfold rawDN
        rw [monthOff_zero]
        omega
      · rw [if_neg hm]
        have hlen := monthLen_bounds (isLeap y) (m - 1)
        have hstep := ih y (m - 1) (d + monthLen (isLeap y) (m - 1))
          (by omega) (by omega) (by intro h; omega) (by intro h; omega)
        refine ⟨hstep.1, hstep.2.1, hstep.2.2.1, hstep.2.2.2.1, ?_⟩
        rw [hstep.2.2.2.2]
        have hadd := monthOff_add' (isLeap y) m (by omega) (by omega)
        unfold rawDN
        omega
    · rw [if_neg h1]
      have hBd := hB (by omega)
      by_cases h2 : monthLen (isLeap y) m < d
      · rw [if_pos h2]
        have hlenm := monthLen_bounds (isLeap y) m
        by_cases hm : m = 11
        · rw [if_pos hm]
          subst hm
          have h31 := monthLen_eleven (isLeap y)
          have hstep := ih (y + 1) 0 (d - monthLen (isLeap y) 11)
            (by omega) (by omega) (by intro h; omega) (by intro h; omega)
          refine ⟨hstep.1, hstep.2.1, hstep.2.2.1, hstep.2.2.2.1, ?_⟩
          rw [hstep.2.2.2.2]
          have hy := daysToYear_succ y
          have h11 := monthOff_eleven y
          unfold rawDN
          rw [monthOff_zero]
          omega
        · rw [if_neg hm]
          have hlen := monthLen_bounds (isLeap y) (m + 1)
          have hstep := ih y (m + 1) (d - monthLen (isLeap y) m)
            (by omega) (by omega) (by intro h; omega) (by intro h; omega)
          refine ⟨hstep.1, hstep.2.1, hstep.2.2.1, hstep.2.2.2.1, ?_⟩
          rw [hstep.2.2.2.2]
          have hadd := monthOff_add (isLeap y) m (by omega) (by omega)
          unfold rawDN
          omega
      · rw [if_neg h2]
        refine ⟨?_, ?_, ?_, ?_, ?_⟩ <;> simp <;> omega

lemma emod12_bounds (m : Int) : 0 ≤ m % 12 ∧ m % 12 < 12 := by omega

lemma normD_spec (y m d ms : Int) :
    0 ≤ (normD y m d ms).m ∧ (normD y m d ms).m < 12 ∧
      1 ≤ (normD y m d ms).d ∧
      (normD y m d ms).d ≤ monthLen (isLeap (normD y m d ms).y) (normD y m d ms).m ∧
      (normD y m d ms).ms = ms ∧
      (normD y m d ms).dayNum = extDN y m d := by
  have hmod := emod12_bounds m
  have hspec := rollD_spec (rollFuel d) (y + m / 12) (m % 12) d hmod.1 hmod.2
    (by intro h; unfold rollFuel; rw [if_pos h]; omega)
    (by intro h; unfold rollFuel; rw [if_neg (by omega)]; omega)
  exact ⟨hspec.1, hspec.2.1, hspec.2.2.1, hspec.2.2.2.1, rfl, hspec.2.2.2.2⟩

lemma normD_valid (y m d ms : Int) (h0 : 0 ≤ ms) (h1 : ms < dayMs) :
    (normD y m d ms).Valid := by
  have h := normD_spec y m d ms
  exact ⟨h.1, h.2.1, h.2.2.1, h.2.2.2.1, by rw [h.2.2.2.2.1]; exact h0,
    by rw [h.2.2.2.2.1]; exact h1⟩

lemma normD_dayNum (y m d ms : Int) : (normD y m d ms).dayNum = extDN y m d :=
  (normD_spec y m d ms).2.2.2.2.2

lemma normD_ms (y m d ms : Int) : (normD y m d ms).ms = ms := rfl

lemma normD_time (y m d ms : Int) :
    (normD y m d ms).time = (extDN y m d - 719528) * dayMs + ms := by
  unfold JSDate.time
  rw [normD_dayNum, normD_ms]

lemma extDN_raw (y m d : Int) (h0 : 0 ≤ m) (h1 : m < 12) : extDN y m d = rawDN y m d := by
  have hq : m / 12 = 0 := by omega
  have hr : m % 12 = m := by omega
  unfold extDN
  rw [hq, hr, add_zero]

lemma rawDN_d_mono (y m d d' : Int) (h : d ≤ d') : rawDN y m d ≤ rawDN y m d' := by
  unfold rawDN; omega

/-- Normalization is the identity on in-range components (used to compute
concrete candidate dates). -/
lemma normD_small (y m d ms : Int) (h0 : 0 ≤ m) (h1 : m < 12) (hd1 : 1 ≤ d)
    (hd31 : d ≤ 31) :
    normD y m d ms = if d ≤ monthLen (isLeap y) m then ⟨y, m, d, ms⟩
      else ⟨y, m + 1, d - monthLen (isLeap y) m, ms⟩ := by
  have hq : m / 12 = 0 := by omega
  have hr : m % 12 = m := by omega
  have hlen := monthLen_bounds (isLeap y) m
  unfold normD rollFuel
  rw [hq, hr, add_zero]
  rw [if_neg (by omega : ¬ d < 1)]
  have hfuel : ∃ f : Nat, d.toNat + 1 = f + 1 := ⟨d.toNat, rfl⟩
  obtain ⟨f, hf⟩ := hfuel
  rw [hf, rollD]
  rw [if_neg (by omega : ¬ d < 1)]
  by_cases hle : d ≤ monthLen (isLeap y) m
  · rw [if_pos hle, if_neg (by omega)]
  · rw [if_neg hle, if_pos (by omega)]
    have hm11 : ¬ m = 11 := by
      intro hm
      subst hm
      rw [monthLen_eleven] at hle
      omega
    rw [if_neg hm11]
    have hlen1 := monthLen_bounds (isLeap y) (m + 1)
    have hfd : ∃ g : Nat, f = g + 1 := by
      refine ⟨f - 1, ?_⟩
      omega
    obtain ⟨g, hg⟩ := hfd
    rw [hg, rollD]
    rw [if_neg (by omega : ¬ d - monthLen (isLeap y) m < 1),
      if_neg (by omega : ¬ monthLen (isLeap y) (m + 1) < d - monthLen (isLeap y) m)]

lemma foldl_add_monthly : ∀ (l : List Subscription) (acc : ℚ),
    l.foldl (fun total sub => total + getMonthlyEquivalent sub) acc
      = acc + (l.map getMonthlyEquivalent).sum := by
  intro l
  induction l with
  | nil => intro acc; simp
  | cons hd tl ih =>
    intro acc
    simp only [List.foldl_cons, List.map_cons, List.sum_cons, ih]
    ring

/-- C2: `calculateTotalMonthlySpend` sums the unconverted monthly
equivalents of exactly the non-deleted subscriptions, so its value does
not depend on the target currency. -/
theorem spec2_c2 :
    ∀ (subs : List Subscription) (c₁ c₂ : Currency),
      calculateTotalMonthlySpend subs c₁
          = ((subs.filter fun sub => !sub.isDeleted).map getMonthlyEquivalent).sum
        ∧ calculateTotalMonthlySpend subs c₁ = calculateTotalMonthlySpend subs c₂ := by
  intro subs c₁ c₂
  have h : ∀ c : Currency, calculateTotalMonthlySpend subs c
      = ((subs.filter fun sub => !sub.isDeleted).map getMonthlyEquivalent).sum := by
    intro c
    show (subs.filter fun sub => !sub.isDeleted).foldl
        (fun total sub => total + getMonthlyEquivalent sub) 0 = _
    rw [foldl_add_monthly]
    ring
  exact ⟨h c₁, by rw [h c₁, h c₂]⟩

/-- C5: `convertCurrency` is the identity when source and target agree and
otherwise pivots through USD with the fixed rate table
USD=1, INR=83, EUR=0.92, GBP=0.79, AUD=1.52. -/
theorem spec2_c5 :
    (∀ (x : ℚ) (c : Currency), convertCurrency x c c = x)
      ∧ (∀ (x : ℚ) (src tgt : Currency), src ≠ tgt →
          convertCurrency x src tgt = x / rates src * rates tgt)
      ∧ rates .USD = 1 ∧ rates .INR = 83.0 ∧ rates .EUR = 0.92 ∧ rates .GBP = 0.79
      ∧ rates .AUD = 1.52 :=
  ⟨fun x c => by unfold convertCurrency; rw [if_pos rfl],
    fun x src tgt h => by unfold convertCurrency; rw [if_neg h],
    rfl, rfl, rfl, rfl, rfl⟩

/-- C5 witness: conversion between two distinct currencies follows the
pivot formula. -/
theorem spec2_c5_witness :
    convertCurrency 10 .USD .INR = 10 / rates .USD * rates .INR :=
  spec2_c5.2.1 10 .USD .INR (by decide)

/-- C6 counterexample: with `customFrequencyDays` present but zero, the
code returns the raw amount (`10`), not `amount × 30 / customFrequencyDays`
as the claim asserts for every present value. -/
theorem spec2_c6_counterexample :
    c6Sub.frequency = "custom" ∧ c6Sub.customFrequencyDays = some 0 ∧
      getMonthlyEquivalent c6Sub = 10 ∧
      getMonthlyEquivalent c6Sub
        ≠ c6Sub.amount * 30 / ((c6Sub.customFrequencyDays.getD 0 : Int) : ℚ) := by
  refine ⟨rfl, rfl, rfl, ?_⟩
  show (10 : ℚ) ≠ 10 * 30 / ((0 : Int) : ℚ)
  norm_num

/-- C6 (amended): `getMonthlyEquivalent` maps monthly to the amount,
quarterly to amount/3, half-yearly to amount/6, yearly to amount/12,
custom with a present *nonzero* `customFrequencyDays` to
amount × 30 / customFrequencyDays, custom with an absent or zero
`customFrequencyDays` to the raw amount, and any unrecognized frequency to
the raw amount. -/
theorem spec2_c6 (s : Subscription) :
    (s.frequency = "monthly" → getMonthlyEquivalent s = s.amount)
      ∧ (s.frequency = "quarterly" → getMonthlyEquivalent s = s.amount / 3)
      ∧ (s.frequency = "half-yearly" → getMonthlyEquivalent s = s.amount / 6)
      ∧ (s.frequency = "yearly" → getMonthlyEquivalent s = s.amount / 12)
      ∧ (∀ v : Int, s.frequency = "custom" → s.customFrequencyDays = some v → v ≠ 0 →
          getMonthlyEquivalent s = s.amount * 30 / (v : ℚ))
      ∧ (s.frequency = "custom" →
          (s.customFrequencyDays = none ∨ s.customFrequencyDays = some 0) →
          getMonthlyEquivalent s = s.amount)
      ∧ (s.frequency ≠ "monthly" → s.frequency ≠ "quarterly" →
          s.frequency ≠ "half-yearly" → s.frequency ≠ "yearly" →
          s.frequency ≠ "custom" → getMonthlyEquivalent s = s.amount) := by
  unfold getMonthlyEquivalent
  refine ⟨?_, ?_, ?_, ?_, ?_, ?_, ?_⟩
  · intro h; rw [if_pos h]
  · intro h
    rw [if_neg (by rw [h]; decide), if_pos h]
  · intro h
    rw [if_neg (by rw [h]; decide), if_neg (by rw [h]; decide), if_pos h]
  · intro h
    rw [if_neg (by rw [h]; decide), if_neg (by rw [h]; decide),
      if_neg (by rw [h]; decide), if_pos h]
  · intro v h hv hv0
    rw [if_neg (by rw [h]; decide), if_neg (by rw [h]; decide),
      if_neg (by rw [h]; decide), if_neg (by rw [h]; decide), if_pos h]
    rw [hv]
    have : daysTruthy (some v) = true := by
      unfold daysTruthy
      simpa using hv0
    rw [if_pos this]
    rfl
  · intro h hn
    rw [if_neg (by rw [h]; decide), if_neg (by rw [h]; decide),
      if_neg (by rw [h]; decide), if_neg (by rw [h]; decide), if_pos h]
    rcases hn with hn | hn <;> rw [hn] <;> rfl
  · intro h1 h2 h3 h4 h5
    rw [if_neg h1, if_neg h2, if_neg h3, if_neg h4, if_neg h5]

/-- C6 witness: the amended case split evaluated on a custom subscription
with a present nonzero custom frequency. -/
theorem spec2_c6_witness :
    getMonthlyEquivalent ⟨300, .USD, 1, "custom", some 90, ⟨2024, 0, 1, 0⟩, false, none, false⟩
      = (300 : ℚ) * 30 / ((90 : Int) : ℚ) :=
  (spec2_c6 _).2.2.2.2.1 90 rfl rfl (by decide)

lemma runCycles_eq_iterate (freq : String) (cd : Option Int) :
    ∀ (n : Nat) (d : JSDate),
      runCycles freq cd n d = (fun x => addBillingCycle x freq cd)^[n] d := by
  intro n
  induction n with
  | zero => intro d; rfl
  | succ n ih =>
    intro d
    show runCycles freq cd n (addBillingCycle d freq cd) = _
    rw [Function.iterate_succ_apply]
    exact ih _

lemma runCycles_succ (freq : String) (cd : Option Int) (n : Nat) (d : JSDate) :
    runCycles freq cd (n + 1) d = addBillingCycle (runCycles freq cd n d) freq cd := by
  rw [runCycles_eq_iterate, runCycles_eq_iterate, Function.iterate_succ_apply']

/-- C3 counterexample: `cycleLimit` is present (`some 0`) and the
subscription is one-time, yet the code throws, because JavaScript `0` is
falsy; the claimed "raises iff not one-time or cycleLimit absent" fails. -/
theorem spec2_c3_counterexample :
    c3Sub.isOneTime = true ∧ c3Sub.cycleLimit ≠ none ∧
      getSubscriptionEndDate c3Sub = .error "Not a one-time subscription" :=
  ⟨rfl, by decide, rfl⟩

/-- C3 (amended): `getSubscriptionEndDate` fails exactly when the
subscription is not one-time or `cycleLimit` is absent *or zero*; in the
remaining cases it returns `startDate` advanced by `addBillingCycle`
exactly `cycleLimit` times. -/
theorem spec2_c3 (s : Subscription) :
    ((∃ e, getSubscriptionEndDate s = .error e) ↔
        (s.isOneTime = false ∨ s.cycleLimit = none ∨ s.cycleLimit = some 0))
      ∧ (∀ n : Nat, s.isOneTime = true → s.cycleLimit = some n → n ≠ 0 →
          getSubscriptionEndDate s
            = .ok ((fun x => addBillingCycle x s.frequency s.customFrequencyDays)^[n]
                s.startDate)) := by
  constructor
  · cases hone : s.isOneTime
    · simp [getSubscriptionEndDate, hone]
    · rcases hcl : s.cycleLimit with _ | n
      · simp [getSubscriptionEndDate, hone, hcl, cycleTruthy]
      · by_cases hn : n = 0
        · subst hn
          simp [getSubscriptionEndDate, hone, hcl, cycleTruthy]
        · simp [getSubscriptionEndDate, hone, hcl, cycleTruthy, hn]
  · intro n h1 h2 h3
    unfold getSubscriptionEndDate
    rw [if_neg (by simp [h1, h2, cycleTruthy, h3])]
    unfold endDateCore
    rw [h2]
    show Except.ok (runCycles s.frequency s.customFrequencyDays n s.startDate) = _
    rw [runCycles_eq_iterate]

/-- C3 witness: the amended theorem evaluated on a two-cycle monthly
one-time subscription. -/
theorem spec2_c3_witness :
    c3wSub.isOneTime = true ∧ c3wSub.cycleLimit = some 2 ∧ (2 : Nat) ≠ 0 ∧
      getSubscriptionEndDate c3wSub
        = .ok ((fun x => addBillingCycle x c3wSub.frequency c3wSub.customFrequencyDays)^[2]
            c3wSub.startDate) :=
  ⟨rfl, rfl, by decide, (spec2_c3 c3wSub).2 2 rfl rfl (by decide)⟩

/-- C4: `getCancellationReminderDate` is `none` exactly when the
subscription is not one-time, has no `cycleLimit`, or `cycleLimit ≤ 1`;
otherwise (cycleLimit = N ≥ 2) it returns exactly `startDate` advanced by
`addBillingCycle` N−1 times, so that one further `addBillingCycle` on the
result yields the subscription end date. -/
theorem spec2_c4 (s : Subscription) :
    (getCancellationReminderDate s = none ↔
        (s.isOneTime = false ∨ s.cycleLimit = none ∨ ∃ n, s.cycleLimit = some n ∧ n ≤ 1))
      ∧ (∀ n : Nat, s.isOneTime = true → s.cycleLimit = some n → 2 ≤ n →
          getCancellationReminderDate s
              = some ((fun x => addBillingCycle x s.frequency s.customFrequencyDays)^[n - 1]
                  s.startDate)
            ∧ getSubscriptionEndDate s
                = .ok (addBillingCycle
                    ((fun x => addBillingCycle x s.frequency s.customFrequencyDays)^[n - 1]
                      s.startDate)
                    s.frequency s.customFrequencyDays)) := by
  constructor
  · cases hone : s.isOneTime
    · simp [getCancellationReminderDate, hone]
    · rcases hcl : s.cycleLimit with _ | n
      · simp [getCancellationReminderDate, hone, hcl, cycleTruthy]
      · by_cases hn : n ≤ 1
        · rcases (by omega : n = 0 ∨ n = 1) with h | h <;> subst h <;>
            simp [getCancellationReminderDate, hone, hcl, cycleTruthy]
        · simp [getCancellationReminderDate, hone, hcl, cycleTruthy, hn]
          omega
  · intro n h1 h2 hn
    constructor
    · unfold getCancellationReminderDate
      rw [if_neg (by simp [h1, h2, cycleTruthy]; omega)]
      rw [h2]
      show some (runCycles s.frequency s.customFrequencyDays ((some n).getD 0 - 1)
        s.startDate) = _
      rw [runCycles_eq_iterate]
      exact rfl
    · unfold getSubscriptionEndDate
      rw [if_neg (by simp [h1, h2, cycleTruthy]; omega)]
      unfold endDateCore
      rw [h2]
      show Except.ok (runCycles s.frequency s.customFrequencyDays n s.startDate) = _
      have hsub : n - 1 + 1 = n := by omega
      conv_lhs => rw [← hsub]
      rw [runCycles_succ, runCycles_eq_iterate]

/-- C4 witness: on the six-cycle monthly subscription the reminder date is
the start date advanced five cycles, and one more cycle yields the end
date. -/
theorem spec2_c4_witness :
    c4Sub.isOneTime = true ∧ c4Sub.cycleLimit = some 6 ∧ (2 : Nat) ≤ 6 ∧
      getCancellationReminderDate c4Sub
          = some ((fun x => addBillingCycle x c4Sub.frequency c4Sub.customFrequencyDays)^[6 - 1]
              c4Sub.startDate)
        ∧ getSubscriptionEndDate c4Sub
            = .ok (addBillingCycle
                ((fun x => addBillingCycle x c4Sub.frequency c4Sub.customFrequencyDays)^[6 - 1]
                  c4Sub.startDate)
                c4Sub.frequency c4Sub.customFrequencyDays) :=
  ⟨rfl, rfl, by decide, (spec2_c4 c4Sub).2 6 rfl rfl (by decide)⟩

/-- C10: with `frequency = 'custom'` and `customFrequencyDays` absent,
adding or subtracting a billing cycle is the identity, and
`getSubscriptionEndDate` of such a one-time subscription returns
`startDate` itself without raising. -/
theorem spec2_c10 :
    (∀ d : JSDate, addBillingCycle d "custom" none = d)
      ∧ (∀ d : JSDate, subtractBillingCycle d "custom" none = d)
      ∧ (∀ (s : Subscription) (n : Nat), s.frequency = "custom" →
          s.customFrequencyDays = none → s.isOneTime = true → s.cycleLimit = some n →
          n ≠ 0 → getSubscriptionEndDate s = .ok s.startDate) := by
  refine ⟨fun d => rfl, fun d => rfl, ?_⟩
  intro s n hf hcd h1 h2 h3
  unfold getSubscriptionEndDate
  rw [if_neg (by simp [h1, h2, cycleTruthy, h3])]
  unfold endDateCore
  rw [h2, hf, hcd]
  show Except.ok (runCycles "custom" none n s.startDate) = _
  rw [runCycles_eq_iterate]
  exact congrArg Except.ok
    (@Function.iterate_fixed JSDate (fun x => addBillingCycle x "custom" none)
      s.startDate rfl n)

/-- C10 witness: the end date of a custom one-time subscription without
`customFrequencyDays` is its start date. -/
theorem spec2_c10_witness :
    c10Sub.frequency = "custom" ∧ c10Sub.customFrequencyDays = none ∧
      c10Sub.isOneTime = true ∧ c10Sub.cycleLimit = some 3 ∧ (3 : Nat) ≠ 0 ∧
      getSubscriptionEndDate c10Sub = .ok c10Sub.startDate :=
  ⟨rfl, rfl, rfl, rfl, by decide, spec2_c10.2.2 c10Sub 3 rfl rfl rfl rfl (by decide)⟩

/-- C9: for recurring subscriptions (`isOneTime = false`),
`getNextBillingDate` never reads `startDate` — two subscriptions differing
only in `startDate` get the same result — and consequently the result can
lie before a future `startDate`. -/
theorem spec2_c9 :
    (∀ (s : Subscription) (d now : JSDate), s.isOneTime = false →
        getNextBillingDate
            ⟨s.amount, s.currency, s.billingDate, s.frequency, s.customFrequencyDays,
              d, s.isOneTime, s.cycleLimit, s.isDeleted⟩ now
          = getNextBillingDate s now)
      ∧ (c9Sub.isOneTime = false ∧ c9Now.Valid ∧ c9Now.time < c9Sub.startDate.time ∧
          (getNextBillingDate c9Sub c9Now).time < c9Sub.startDate.time) := by
  constructor
  · intro s d now hrec
    rcases s with ⟨a, c, bd, f, cd, sd, one, cl, del⟩
    simp only at hrec
    subst hrec
    rfl
  · exact ⟨rfl, by decide, by decide, by decide⟩

/-- C9 witness: the independence part evaluated on the concrete recurring
subscription, moving its start date by a year. -/
theorem spec2_c9_witness :
    getNextBillingDate
        ⟨c9Sub.amount, c9Sub.currency, c9Sub.billingDate, c9Sub.frequency,
          c9Sub.customFrequencyDays, ⟨2031, 0, 1, 0⟩, c9Sub.isOneTime, c9Sub.cycleLimit,
          c9Sub.isDeleted⟩ c9Now
      = getNextBillingDate c9Sub c9Now :=
  spec2_c9.1 c9Sub ⟨2031, 0, 1, 0⟩ c9Now rfl

/-- C8: `getUpcomingSubscriptions` returns a permutation of the
non-deleted entries whose days-until-billing lies in `[0, windowDays]`,
ordered ascending by days-until-billing. -/
theorem spec2_c8 (subs : List Subscription) (days : Int) (now : JSDate) :
    List.Perm (getUpcomingSubscriptions subs days now)
        (subs.filter fun sub =>
          !sub.isDeleted && decide (0 ≤ getDaysUntilBilling sub now) &&
            decide (getDaysUntilBilling sub now ≤ days))
      ∧ List.Pairwise
          (fun a b => getDaysUntilBilling a now ≤ getDaysUntilBilling b now)
          (getUpcomingSubscriptions subs days now)
      ∧ (∀ x, x ∈ getUpcomingSubscriptions subs days now ↔
          (x ∈ subs ∧ x.isDeleted = false ∧ 0 ≤ getDaysUntilBilling x now ∧
            getDaysUntilBilling x now ≤ days)) := by
  letI : IsTotal Subscription
      (fun a b => getDaysUntilBilling a now ≤ getDaysUntilBilling b now) :=
    ⟨fun a b => le_total _ _⟩
  letI : IsTrans Subscription
      (fun a b => getDaysUntilBilling a now ≤ getDaysUntilBilling b now) :=
    ⟨fun a b c hab hbc => le_trans hab hbc⟩
  refine ⟨List.perm_insertionSort _ _, List.sorted_insertionSort _ _, ?_⟩
  intro x
  unfold getUpcomingSubscriptions
  rw [List.mem_insertionSort, List.mem_filter]
  simp [and_assoc]

lemma addBillingCycle_monthly (t : JSDate) (cd : Option Int) :
    addBillingCycle t "monthly" cd = normD t.y (t.m + 1) t.d t.ms := rfl

lemma addBillingCycle_quarterly (t : JSDate) (cd : Option Int) :
    addBillingCycle t "quarterly" cd = normD t.y (t.m + 3) t.d t.ms := rfl

lemma addBillingCycle_halfYearly (t : JSDate) (cd : Option Int) :
    addBillingCycle t "half-yearly" cd = normD t.y (t.m + 6) t.d t.ms := rfl

lemma addBillingCycle_yearly (t : JSDate) (cd : Option Int) :
    addBillingCycle t "yearly" cd = normD (t.y + 1) t.m t.d t.ms := rfl

lemma monthAdvance_gt (y m d ms m₂ d₂ k : Int)
    (hm0 : 0 ≤ m) (hm12 : m < 12) (hd1 : 1 ≤ d) (hd : d ≤ monthLen (isLeap y) m)
    (hms0 : 0 ≤ ms) (hms : ms < dayMs)
    (hml : m ≤ m₂) (hmu : m₂ ≤ m + 1) (hm₂12 : m₂ < 12)
    (hd₂ : 1 ≤ d₂) (hk1 : 1 ≤ k) (hk : k ≤ 11) :
    (rawDN y m d - 719528) * dayMs + ms < (extDN y (m₂ + k) d₂ - 719528) * dayMs := by
  have hdn : rawDN y m d < extDN y (m₂ + k) d₂ := by
    by_cases h12 : m₂ + k < 12
    · rw [extDN_raw _ _ _ (by omega) h12]
      have hadd := monthOff_add (isLeap y) m hm0 (by omega)
      have hmono := monthOff_mono (isLeap y) (m + 1) (m₂ + k) (by omega) (by omega) (by omega)
      unfold rawDN
      omega
    · have hq : (m₂ + k) / 12 = 1 := by omega
      have hr : (m₂ + k) % 12 = m₂ + k - 12 := by omega
      unfold extDN
      rw [hq, hr]
      have hsucc := daysToYear_succ y
      have hdoy : monthOff (isLeap y) m + (d - 1) ≤ 364 + leapInd y :=
        dayOfYear_le (isLeap y) m d hm0 hm12 hd
      have hoff2 := monthOff_nonneg (isLeap (y + 1)) (m₂ + k - 12) (by omega) (by omega)
      unfold rawDN
      omega
  unfold dayMs at *
  omega

lemma yearAdvance_gt (y m d ms m₂ d₂ : Int)
    (hm0 : 0 ≤ m) (hm12 : m < 12) (hd1 : 1 ≤ d) (hd : d ≤ monthLen (isLeap y) m)
    (hms0 : 0 ≤ ms) (hms : ms < dayMs)
    (hm₂0 : 0 ≤ m₂) (hm₂12 : m₂ < 12) (hd₂ : 1 ≤ d₂) :
    (rawDN y m d - 719528) * dayMs + ms < (extDN (y + 1) m₂ d₂ - 719528) * dayMs := by
  have hdn : rawDN y m d < rawDN (y + 1) m₂ d₂ := by
    have hsucc := daysToYear_succ y
    have hdoy : monthOff (isLeap y) m + (d - 1) ≤ 364 + leapInd y :=
      dayOfYear_le (isLeap y) m d hm0 hm12 hd
    have hoff2 := monthOff_nonneg (isLeap (y + 1)) m₂ hm₂0 (by omega)
    have hind : leapInd y = 0 ∨ leapInd y = 1 := by unfold leapInd; split <;> omega
    unfold rawDN
    omega
  rw [extDN_raw _ _ _ hm₂0 hm₂12]
  unfold dayMs at *
  omega

lemma bigYear_gt (y m d ms m₂ d₂ : Int)
    (hm0 : 0 ≤ m) (hm12 : m < 12) (hd1 : 1 ≤ d) (hd : d ≤ monthLen (isLeap y) m)
    (hms0 : 0 ≤ ms) (hms : ms < dayMs)
    (hy0 : 0 ≤ y) (hy99 : y ≤ 99)
    (hm₂0 : 0 ≤ m₂) (hm₂12 : m₂ < 12) (hd₂ : 1 ≤ d₂) :
    (rawDN y m d - 719528) * dayMs + ms < (rawDN (y + 1900) m₂ d₂ - 719528) * dayMs := by
  have hdn : rawDN y m d + 1 ≤ rawDN (y + 1900) m₂ d₂ := by
    have h1900 := daysToYear_1900 y
    have hdoy : monthOff (isLeap y) m + (d - 1) ≤ 364 + leapInd y :=
      dayOfYear_le (isLeap y) m d hm0 hm12 hd
    have hind : leapInd y = 0 ∨ leapInd y = 1 := by unfold leapInd; split <;> omega
    have hoff2 := monthOff_nonneg (isLeap (y + 1900)) m₂ hm₂0 (by omega)
    unfold rawDN
    omega
  unfold dayMs at *
  omega

lemma advance_gt_aux (now cand : JSDate) (freq : String) (cd : Option Int)
    (hval : now.Valid) (hcy : cand.y = now.y)
    (hcm : cand.m = now.m ∨ cand.m = now.m + 1) (hcm12 : cand.m < 12)
    (hcd1 : 1 ≤ cand.d) (hcms : cand.ms = 0)
    (hfreq : freq = "monthly" ∨ freq = "quarterly" ∨ freq = "half-yearly" ∨
      freq = "yearly") :
    now.time < (addBillingCycle cand freq cd).time := by
  obtain ⟨hm0, hm12, hd1, hdlen, hms0, hms⟩ := hval
  have hml : now.m ≤ cand.m := by rcases hcm with h | h <;> omega
  have hmu : cand.m ≤ now.m + 1 := by rcases hcm with h | h <;> omega
  rcases hfreq with h | h | h | h <;> subst h
  · rw [addBillingCycle_monthly, normD_time, hcy, hcms, add_zero]
    have hstep := monthAdvance_gt now.y now.m now.d now.ms cand.m cand.d 1
      hm0 hm12 hd1 hdlen hms0 hms hml hmu hcm12 hcd1 (by omega) (by omega)
    show (rawDN now.y now.m now.d - 719528) * dayMs + now.ms < _
    omega
  · rw [addBillingCycle_quarterly, normD_time, hcy, hcms, add_zero]
    have hstep := monthAdvance_gt now.y now.m now.d now.ms cand.m cand.d 3
      hm0 hm12 hd1 hdlen hms0 hms hml hmu hcm12 hcd1 (by omega) (by omega)
    show (rawDN now.y now.m now.d - 719528) * dayMs + now.ms < _
    omega
  · rw [addBillingCycle_halfYearly, normD_time, hcy, hcms, add_zero]
    have hstep := monthAdvance_gt now.y now.m now.d now.ms cand.m cand.d 6
      hm0 hm12 hd1 hdlen hms0 hms hml hmu hcm12 hcd1 (by omega) (by omega)
    show (rawDN now.y now.m now.d - 719528) * dayMs + now.ms < _
    omega
  · rw [addBillingCycle_yearly, normD_time, hcy, hcms, add_zero]
    have hstep := yearAdvance_gt now.y now.m now.d now.ms cand.m cand.d
      hm0 hm12 hd1 hdlen hms0 hms (by omega) hcm12 hcd1
    show (rawDN now.y now.m now.d - 719528) * dayMs + now.ms < _
    omega

/-- C1 counterexample: a well-formed recurring subscription with
`frequency = 'custom'` and `customFrequencyDays = 1` whose next billing
date on 2024-01-20 is 2024-01-02, i.e. *not* strictly after `now`: the
single cycle advance of the code is not enough for short custom cycles. -/
theorem spec2_c1_counterexample :
    (⟨2024, 0, 20, 0⟩ : JSDate).Valid ∧ c1Sub.isOneTime = false ∧
      c1Sub.customFrequencyDays = some 1 ∧ 1 ≤ c1Sub.billingDate ∧
      c1Sub.billingDate ≤ 31 ∧
      getNextBillingDate c1Sub ⟨2024, 0, 20, 0⟩ = ⟨2024, 0, 2, 0⟩ ∧
      (getNextBillingDate c1Sub ⟨2024, 0, 20, 0⟩).time ≤ (⟨2024, 0, 20, 0⟩ : JSDate).time := by
  refine ⟨by decide, rfl, rfl, by decide, by decide, by decide, by decide⟩

/-- C1 (amended): for recurring subscriptions with a month- or
year-stepped frequency (monthly, quarterly, half-yearly, yearly) and a
day-of-month `billingDate` in 1..31, the next billing date is strictly
after `now`; the claim fails for `frequency = 'custom'`. -/
theorem spec2_c1 (s : Subscription) (now : JSDate) (hval : now.Valid)
    (hrec : s.isOneTime = false) (hbd1 : 1 ≤ s.billingDate) (hbd31 : s.billingDate ≤ 31)
    (hfreq : s.frequency = "monthly" ∨ s.frequency = "quarterly" ∨
      s.frequency = "half-yearly" ∨ s.frequency = "yearly") :
    now.time < (getNextBillingDate s now).time := by
  have hm0 := hval.1
  have hm12 := hval.2.1
  have hd1 := hval.2.2.1
  have hdlen := hval.2.2.2.1
  have hms0 := hval.2.2.2.2.1
  have hms := hval.2.2.2.2.2
  have hred : getNextBillingDate s now
      = (if (newDateYMD now.y now.m s.billingDate).time ≤ now.time then
          addBillingCycle (newDateYMD now.y now.m s.billingDate) s.frequency
            s.customFrequencyDays
        else newDateYMD now.y now.m s.billingDate) := by
    unfold getNextBillingDate
    rw [hrec]
    rfl
  rw [hred]
  by_cases hy : 0 ≤ now.y ∧ now.y ≤ 99
  · have hcand : newDateYMD now.y now.m s.billingDate
        = normD (now.y + 1900) now.m s.billingDate 0 := by
      unfold newDateYMD
      rw [if_pos hy]
    have hgt : now.time < (normD (now.y + 1900) now.m s.billingDate 0).time := by
      rw [normD_time, extDN_raw _ _ _ hm0 hm12, add_zero]
      have hstep := bigYear_gt now.y now.m now.d now.ms now.m s.billingDate
        hm0 hm12 hd1 hdlen hms0 hms hy.1 hy.2 hm0 hm12 hbd1
      show (rawDN now.y now.m now.d - 719528) * dayMs + now.ms < _
      omega
    rw [hcand, if_neg (not_le.mpr hgt)]
    exact hgt
  · have hcand : newDateYMD now.y now.m s.billingDate
        = normD now.y now.m s.billingDate 0 := by
      unfold newDateYMD
      rw [if_neg hy]
    rw [hcand, normD_small now.y now.m s.billingDate 0 hm0 hm12 hbd1 hbd31]
    by_cases hov : s.billingDate ≤ monthLen (isLeap now.y) now.m
    · rw [if_pos hov]
      by_cases hbr : (⟨now.y, now.m, s.billingDate, 0⟩ : JSDate).time ≤ now.time
      · rw [if_pos hbr]
        exact advance_gt_aux now ⟨now.y, now.m, s.billingDate, 0⟩ s.frequency
          s.customFrequencyDays hval rfl (Or.inl rfl) hm12 hbd1 rfl hfreq
      · rw [if_neg hbr]
        exact not_le.mp hbr
    · rw [if_neg hov]
      have hm11 : now.m ≠ 11 := by
        intro h
        rw [h, monthLen_eleven] at hov
        omega
      by_cases hbr : (⟨now.y, now.m + 1,
          s.billingDate - monthLen (isLeap now.y) now.m, 0⟩ : JSDate).time ≤ now.time
      · rw [if_pos hbr]
        have hlen := monthLen_bounds (isLeap now.y) now.m
        exact advance_gt_aux now
          ⟨now.y, now.m + 1, s.billingDate - monthLen (isLeap now.y) now.m, 0⟩
          s.frequency s.customFrequencyDays hval rfl (Or.inr rfl)
          (by show now.m + 1 < 12; omega)
          (by show 1 ≤ s.billingDate - monthLen (isLeap now.y) now.m; omega) rfl hfreq
      · rw [if_neg hbr]
        exact not_le.mp hbr

/-- C1 witness: the amended theorem evaluated for a monthly subscription
billing on the 15th, observed on 2024-01-20 (specification scenario 1). -/
theorem spec2_c1_witness :
    (⟨2024, 0, 20, 0⟩ : JSDate).Valid ∧
      (⟨2024, 0, 20, 0⟩ : JSDate).time <
        (getNextBillingDate
          ⟨999/100, .USD, 15, "monthly", none, ⟨2024, 0, 15, 0⟩, false, none, false⟩
          ⟨2024, 0, 20, 0⟩).time :=
  ⟨by decide,
    spec2_c1 ⟨999/100, .USD, 15, "monthly", none, ⟨2024, 0, 15, 0⟩, false, none, false⟩
      ⟨2024, 0, 20, 0⟩ (by decide) rfl (by decide) (by decide) (Or.inl rfl)⟩

lemma subtractBillingCycle_monthly (t : JSDate) (cd : Option Int) :
    subtractBillingCycle t "monthly" cd = normD t.y (t.m - 1) t.d t.ms := rfl

lemma subtractBillingCycle_quarterly (t : JSDate) (cd : Option Int) :
    subtractBillingCycle t "quarterly" cd = normD t.y (t.m - 3) t.d t.ms := rfl

lemma subtractBillingCycle_halfYearly (t : JSDate) (cd : Option Int) :
    subtractBillingCycle t "half-yearly" cd = normD t.y (t.m - 6) t.d t.ms := rfl

lemma subtractBillingCycle_yearly (t : JSDate) (cd : Option Int) :
    subtractBillingCycle t "yearly" cd = normD (t.y - 1) t.m t.d t.ms := rfl

lemma daysTruthy_some (v : Int) (hv : v ≠ 0) : daysTruthy (some v) = true := by
  unfold daysTruthy
  simpa using hv

lemma addBillingCycle_custom (t : JSDate) (v : Int) (hv : v ≠ 0) :
    addBillingCycle t "custom" (some v) = normD t.y t.m (t.d + v) t.ms := by
  unfold addBillingCycle
  rw [if_neg (by decide), if_neg (by decide), if_neg (by decide), if_neg (by decide),
    if_pos rfl, if_pos (daysTruthy_some v hv)]
  rfl

lemma subtractBillingCycle_custom (t : JSDate) (v : Int) (hv : v ≠ 0) :
    subtractBillingCycle t "custom" (some v) = normD t.y t.m (t.d - v) t.ms := by
  unfold subtractBillingCycle
  rw [if_neg (by decide), if_neg (by decide), if_neg (by decide), if_neg (by decide),
    if_pos rfl, if_pos (daysTruthy_some v hv)]
  rfl

lemma addBillingCycle_valid (t : JSDate) (freq : String) (cd : Option Int)
    (hms0 : 0 ≤ t.ms) (hms : t.ms < dayMs) (hgf : GoodFreq freq cd) :
    (addBillingCycle t freq cd).Valid := by
  rcases hgf with h | h | h | h | ⟨h, v, hcd, hv⟩ <;> subst h
  · rw [addBillingCycle_monthly]; exact normD_valid _ _ _ _ hms0 hms
  · rw [addBillingCycle_quarterly]; exact normD_valid _ _ _ _ hms0 hms
  · rw [addBillingCycle_halfYearly]; exact normD_valid _ _ _ _ hms0 hms
  · rw [addBillingCycle_yearly]; exact normD_valid _ _ _ _ hms0 hms
  · rw [hcd, addBillingCycle_custom t v (by omega)]
    exact normD_valid _ _ _ _ hms0 hms

lemma runCycles_valid (freq : String) (cd : Option Int)
    (hgf : GoodFreq freq cd) :
    ∀ (n : Nat) (t : JSDate), 0 ≤ t.ms → t.ms < dayMs → 1 ≤ n →
      (runCycles freq cd n t).Valid := by
  intro n
  induction n with
  | zero => intro t _ _ h; omega
  | succ n ih =>
    intro t h0 h1 _
    show (runCycles freq cd n (addBillingCycle t freq cd)).Valid
    rcases Nat.eq_zero_or_pos n with h | h
    · subst h
      exact addBillingCycle_valid t freq cd h0 h1 hgf
    · have hv := addBillingCycle_valid t freq cd h0 h1 hgf
      exact ih _ hv.2.2.2.2.1 hv.2.2.2.2.2 h

lemma getNextBillingDate_eq (s : Subscription) (now : JSDate) :
    getNextBillingDate s now
      = if (s.isOneTime && cycleTruthy s.cycleLimit) = true then
          (if (endDateCore s).time < now.time then endDateCore s else gNBDnext s now)
        else gNBDnext s now := rfl

lemma getNextBillingDate_valid (s : Subscription) (now : JSDate)
    (hstart0 : 0 ≤ s.startDate.ms) (hstart1 : s.startDate.ms < dayMs)
    (hgf : GoodFreq s.frequency s.customFrequencyDays) :
    (getNextBillingDate s now).Valid := by
  have hcand : (newDateYMD now.y now.m s.billingDate).Valid := by
    unfold newDateYMD
    exact normD_valid _ _ _ _ (by omega) (by unfold dayMs; omega)
  have hnext : (gNBDnext s now).Valid := by
    unfold gNBDnext
    split
    · exact addBillingCycle_valid _ _ _ hcand.2.2.2.2.1 hcand.2.2.2.2.2 hgf
    · exact hcand
  rw [getNextBillingDate_eq]
  split
  · split
    · rename_i hone _
      rw [Bool.and_eq_true] at hone
      unfold endDateCore
      rcases hcl : s.cycleLimit with _ | n
      · rw [hcl] at hone
        exact absurd hone.2 (by decide)
      · have hn : n ≠ 0 := by
          intro h
          subst h
          rw [hcl] at hone
          exact absurd hone.2 (by decide)
        exact runCycles_valid _ _ hgf _ _ hstart0 hstart1 (by show 1 ≤ n; omega)
    · exact hnext
  · exact hnext

lemma monthRetreat_lt (y m d k : Int) (hm0 : 0 ≤ m) (hm12 : m < 12)
    (hk1 : 1 ≤ k) (hk : k ≤ 11) :
    extDN y (m - k) d < rawDN y m d := by
  by_cases h0 : 0 ≤ m - k
  · rw [extDN_raw _ _ _ h0 (by omega)]
    have hmono := monthOff_strict_mono (isLeap y) (m - k) m h0 (by omega) (by omega)
    unfold rawDN
    omega
  · have hq : (m - k) / 12 = -1 := by omega
    have hr : (m - k) % 12 = m - k + 12 := by omega
    unfold extDN
    rw [hq, hr, (by ring : y + (-1 : Int) = y - 1)]
    have hsucc := daysToYear_pred y
    have hoffA := monthOff_le (isLeap (y - 1)) (m - k + 12) (by omega) (by omega)
    have hoffB := monthOff_nonneg (isLeap y) m hm0 (by omega)
    have hind : leapInd (y - 1) = 0 ∨ leapInd (y - 1) = 1 := by
      unfold leapInd; split <;> omega
    unfold rawDN
    omega

lemma subtract_lt (t : JSDate) (freq : String) (cd : Option Int)
    (hval : t.Valid) (hgf : GoodFreq freq cd) :
    (subtractBillingCycle t freq cd).time < t.time := by
  obtain ⟨hm0, hm12, hd1, hdlen, hms0, hms⟩ := hval
  have htime : t.time = (rawDN t.y t.m t.d - 719528) * dayMs + t.ms := rfl
  rcases hgf with h | h | h | h | ⟨h, v, hcd, hv⟩ <;> subst h
  · rw [subtractBillingCycle_monthly, normD_time, htime]
    have := monthRetreat_lt t.y t.m t.d 1 hm0 hm12 (by omega) (by omega)
    unfold dayMs at *
    omega
  · rw [subtractBillingCycle_quarterly, normD_time, htime]
    have := monthRetreat_lt t.y t.m t.d 3 hm0 hm12 (by omega) (by omega)
    unfold dayMs at *
    omega
  · rw [subtractBillingCycle_halfYearly, normD_time, htime]
    have := monthRetreat_lt t.y t.m t.d 6 hm0 hm12 (by omega) (by omega)
    unfold dayMs at *
    omega
  · rw [subtractBillingCycle_yearly, normD_time, htime,
      extDN_raw _ _ _ hm0 hm12]
    have hsucc := daysToYear_pred t.y
    have hind : leapInd (t.y - 1) = 0 ∨ leapInd (t.y - 1) = 1 := by
      unfold leapInd; split <;> omega
    have hld := monthOff_leap_diff t.m hm0 (by omega)
    have hdn : rawDN (t.y - 1) t.m t.d < rawDN t.y t.m t.d := by
      unfold rawDN
      cases hL1 : isLeap (t.y - 1) <;> cases hL2 : isLeap t.y <;> omega
    unfold dayMs at *
    omega
  · rw [hcd, subtractBillingCycle_custom t v (by omega), normD_time, htime,
      extDN_raw _ _ _ hm0 hm12]
    have hdn : rawDN t.y t.m (t.d - v) < rawDN t.y t.m t.d := by
      unfold rawDN
      omega
    unfold dayMs at *
    omega

/-- C7: for a well-formed subscription (recognized frequency, positive
`customFrequencyDays` when custom, normalized `startDate`) the billing
cycle progress is clamped into [0, 100] at every instant, and the
previous billing date used in the computation is strictly before the next
one (so the underlying ratio is well defined). -/
theorem spec2_c7 (s : Subscription) (now : JSDate) (hnow : now.Valid)
    (hstart : s.startDate.Valid)
    (hgf : GoodFreq s.frequency s.customFrequencyDays) :
    0 ≤ getBillingCycleProgress s now ∧ getBillingCycleProgress s now ≤ 100 ∧
      (subtractBillingCycle (getNextBillingDate s now) s.frequency
          s.customFrequencyDays).time < (getNextBillingDate s now).time := by
  have hval := getNextBillingDate_valid s now hstart.2.2.2.2.1 hstart.2.2.2.2.2 hgf
  have hlt := subtract_lt _ _ _ hval hgf
  refine ⟨?_, ?_, hlt⟩
  · exact le_max_left 0 _
  · exact max_le (by norm_num) (min_le_left _ _)

/-- C7 witness: the clamp bounds evaluated for the monthly subscription of
scenario 1 at 2024-01-20. -/
theorem spec2_c7_witness :
    0 ≤ getBillingCycleProgress
        ⟨999/100, .USD, 15, "monthly", none, ⟨2024, 0, 15, 0⟩, false, none, false⟩
        ⟨2024, 0, 20, 0⟩
      ∧ getBillingCycleProgress
          ⟨999/100, .USD, 15, "monthly", none, ⟨2024, 0, 15, 0⟩, false, none, false⟩
          ⟨2024, 0, 20, 0⟩ ≤ 100 := by
  have h := spec2_c7
    ⟨999/100, .USD, 15, "monthly", none, ⟨2024, 0, 15, 0⟩, false, none, false⟩
    ⟨2024, 0, 20, 0⟩ (by decide) (by decide) (Or.inl rfl)
  exact ⟨h.1, h.2.1⟩
